import Mathlib

/-!
Verification of the CSV ingestion and validation pipeline of the
Personal-Financial-Advisor repository.

The embedding follows the source files:
  src/utils/parseCSV.ts           (decoder, REQUIRED_HEADERS, convertToDBFormat)
  src/pages/HomePage.tsx          (COLUMN_RULES, checkType, sanitizeRow, validateRows)
  src/services/idb/transactionsRepo.ts (addTransaction, deleteTransaction, count)

The pipeline calls the JavaScript runtime primitives Number(), Date and
String.prototype.trim / split; those primitives are modelled first, following
ECMA-262 (StringToNumber, MakeDay / date-component rollover, TimeClip,
Date.prototype.toISOString).  The host time zone is modelled as UTC, so the
local-time Date constructor and the UTC rendering of toISOString agree.
-/

/-! ## Model of the JavaScript runtime primitives -/

/-- Result of the JS `Number()` coercion.  `fin` carries the value truncated
toward zero (the ToIntegerOrInfinity truncation applied by MakeDay); only the
NaN / infinite classification and the truncated value are observable in this
pipeline, so fractional parts are not retained. -/
inductive JSNum where
  | nan : JSNum
  | inf (pos : Bool) : JSNum
  | fin (val : Int) : JSNum
deriving DecidableEq, Repr

def JSNum.isNaN : JSNum → Bool
  | .nan => true
  | _ => false

/-- JS `x - 1` on a coerced number: NaN and the infinities are absorbing. -/
def JSNum.sub1 : JSNum → JSNum
  | .fin n => .fin (n - 1)
  | x => x

/-- The whitespace characters stripped by JS trimming (ASCII subset; the
Unicode space characters never occur in this development). -/
def isJsSpace (c : Char) : Bool :=
  c = ' ' ∨ c = '\t' ∨ c = '\n' ∨ c = '\r' ∨ c = '\x0b' ∨ c = '\x0c'

def trimChars (cs : List Char) : List Char :=
  ((cs.dropWhile isJsSpace).reverse.dropWhile isJsSpace).reverse

/-- Model of `String.prototype.trim`. -/
def jsTrim (s : String) : String := ⟨trimChars s.data⟩

/-- Model of `String.prototype.split` with a one-character separator:
`"".split(c)` is `[""]`, separators at the ends produce empty pieces. -/
def splitOnChar (sep : Char) : List Char → List (List Char)
  | [] => [[]]
  | c :: rest =>
    let r := splitOnChar sep rest
    if c = sep then [] :: r
    else
      match r with
      | h :: t => (c :: h) :: t
      | [] => [[c]]

def digitsVal (cs : List Char) : Nat :=
  cs.foldl (fun a c => a * 10 + (c.toNat - 48)) 0

def isHexDigit (c : Char) : Bool :=
  c.isDigit ∨ ('a' ≤ c ∧ c ≤ 'f') ∨ ('A' ≤ c ∧ c ≤ 'F')

def hexDigitVal (c : Char) : Nat :=
  if c.isDigit then c.toNat - 48
  else if 'a' ≤ c then c.toNat - 87
  else c.toNat - 55

def isOctDigit (c : Char) : Bool := '0' ≤ c ∧ c ≤ '7'

def isBinDigit (c : Char) : Bool := c = '0' ∨ c = '1'

/-- Radix-prefixed numeric literals accepted by `Number()` (`0x`, `0o`, `0b`);
a sign is not permitted before them. -/
def radixParse (cs : List Char) : Option Nat :=
  match cs with
  | '0' :: x :: ds =>
    if (x = 'x' ∨ x = 'X') ∧ ds ≠ [] ∧ ds.all isHexDigit then
      some (ds.foldl (fun a c => a * 16 + hexDigitVal c) 0)
    else if (x = 'o' ∨ x = 'O') ∧ ds ≠ [] ∧ ds.all isOctDigit then
      some (ds.foldl (fun a c => a * 8 + (c.toNat - 48)) 0)
    else if (x = 'b' ∨ x = 'B') ∧ ds ≠ [] ∧ ds.all isBinDigit then
      some (ds.foldl (fun a c => a * 2 + (c.toNat - 48)) 0)
    else none
  | _ => none

/-- Magnitude of an unsigned decimal literal: either a truncated value or an
overflow past the float range.  The overflow threshold is approximated at
1e400 (above the real 1.8e308); the two regimes agree on everything this
pipeline observes — the value is non-NaN and exceeds the date clip range. -/
inductive NumMag where
  | val (n : Nat) : NumMag
  | overflow : NumMag
deriving DecidableEq, Repr

def expParse (mant : Nat) (fracLen : Nat) (rest : List Char) : Option NumMag :=
  let p : Bool × List Char :=
    match rest with
    | '+' :: t => (false, t)
    | '-' :: t => (true, t)
    | t => (false, t)
  let eneg := p.1
  let ds := p.2
  if ds = [] ∨ ¬ ds.all Char.isDigit then none
  else
    let e := digitsVal ds
    if eneg then
      if fracLen + e ≥ 400 ∧ mant < 10 ^ 400 then some (.val 0)
      else some (.val (mant / 10 ^ (fracLen + e)))
    else
      if e ≥ fracLen then
        let shift := e - fracLen
        if shift > 400 ∧ mant ≠ 0 then some .overflow
        else if shift > 400 then some (.val 0)
        else some (.val (mant * 10 ^ shift))
      else some (.val (mant / 10 ^ (fracLen - e)))

/-- Unsigned decimal literal of StrDecimalLiteral: digits, optional fraction,
optional exponent; `"12a"` or an empty mantissa is a parse failure (NaN). -/
def decParse (cs : List Char) : Option NumMag :=
  let ip := cs.takeWhile Char.isDigit
  let rest := cs.dropWhile Char.isDigit
  match rest with
  | [] => if ip = [] then none else some (.val (digitsVal ip))
  | '.' :: rest2 =>
    let fp := rest2.takeWhile Char.isDigit
    let rest3 := rest2.dropWhile Char.isDigit
    if ip = [] ∧ fp = [] then none
    else
      match rest3 with
      | [] => some (.val (digitsVal ip))
      | c :: rest4 =>
        if c = 'e' ∨ c = 'E' then expParse (digitsVal (ip ++ fp)) fp.length rest4
        else none
  | c :: rest2 =>
    if (c = 'e' ∨ c = 'E') ∧ ip ≠ [] then expParse (digitsVal ip) 0 rest2
    else none

/-- ECMA-262 StringToNumber on a character list: trim, empty means 0,
`Infinity` with optional sign, radix literals, signed decimal literals;
everything else is NaN. -/
def jsNumOfChars (cs0 : List Char) : JSNum :=
  match trimChars cs0 with
  | [] => .fin 0
  | cs =>
    match radixParse cs with
    | some n => .fin (n : Int)
    | none =>
      let sp : Bool × List Char :=
        match cs with
        | '-' :: t => (true, t)
        | '+' :: t => (false, t)
        | t => (false, t)
      let neg := sp.1
      let body := sp.2
      if body = "Infinity".data then .inf (!neg)
      else
        match decParse body with
        | none => .nan
        | some .overflow => .inf (!neg)
        | some (.val n) => .fin (if neg then -(n : Int) else (n : Int))

/-- Model of the JS `Number()` coercion of a string. -/
def jsStringToNumber (s : String) : JSNum := jsNumOfChars s.data

/-! ### Proleptic Gregorian calendar arithmetic (days since 1970-01-01) -/

def isLeapYear (y : Int) : Bool :=
  y % 4 = 0 ∧ (y % 100 ≠ 0 ∨ y % 400 = 0)

def daysInMonth (y : Int) : Nat → Nat
  | 1 => 31
  | 2 => if isLeapYear y then 29 else 28
  | 3 => 31
  | 4 => 30
  | 5 => 31
  | 6 => 30
  | 7 => 31
  | 8 => 31
  | 9 => 30
  | 10 => 31
  | 11 => 30
  | 12 => 31
  | _ => 0

/-- Epoch day of a civil date; `d` may lie outside the month (the linear
day-of-month arithmetic realises the rollover of MakeDay). -/
def daysFromCivil (y : Int) (m : Nat) (d : Int) : Int :=
  let y' := if m ≤ 2 then y - 1 else y
  let era := Int.fdiv y' 400
  let yoe := (y' - era * 400).toNat
  let mp := (m + 9) % 12
  let doy : Int := (((153 * mp + 2) / 5 : Nat) : Int) + d - 1
  let doe : Int := (yoe : Int) * 365 + ((yoe / 4 : Nat) : Int) - ((yoe / 100 : Nat) : Int) + doy
  era * 146097 + doe - 719468

/-- Civil date (year, month, day) of an epoch day. -/
def civilFromDays (z0 : Int) : Int × Nat × Nat :=
  let z := z0 + 719468
  let era := Int.fdiv z 146097
  let doe := (z - era * 146097).toNat
  let yoe := (doe - doe / 1460 + doe / 36524 - doe / 146096) / 365
  let y := (yoe : Int) + era * 400
  let doy := doe - (365 * yoe + yoe / 4 - yoe / 100)
  let mp := (5 * doy + 2) / 153
  let d := doy - (153 * mp + 2) / 5 + 1
  let m := if mp < 10 then mp + 3 else mp - 9
  (if m ≤ 2 then y + 1 else y, m, d)

/-- ECMA-262 MakeDay: months roll into years (floor / modulo pair), the day
argument is added linearly. -/
def makeDay (yr m0 d : Int) : Int :=
  daysFromCivil (yr + Int.fdiv m0 12) ((Int.emod m0 12).toNat + 1) d

/-- `new Date(y, m0, d)` reduced to an epoch day: NaN or infinite components
give an invalid date, two-digit years map to 1900+y, and TimeClip limits the
result to 1e8 days either side of the epoch. -/
def jsNewDateDays (y m0 d : JSNum) : Option Int :=
  match y, m0, d with
  | .fin yv, .fin mv, .fin dv =>
    let yr := if 0 ≤ yv ∧ yv ≤ 99 then 1900 + yv else yv
    let days := makeDay yr mv dv
    if days.natAbs ≤ 100000000 then some days else none
  | _, _, _ => none

def natPad (n w : Nat) : List Char :=
  let s := Nat.toDigits 10 n
  List.replicate (w - s.length) '0' ++ s

/-- The date part of `Date.prototype.toISOString` (UTC): four-digit years in
0..9999, otherwise the signed six-digit expanded form. -/
def isoDateString (days : Int) : String :=
  match civilFromDays days with
  | (y, m, d) =>
    let ys : List Char :=
      if 0 ≤ y ∧ y ≤ 9999 then natPad y.toNat 4
      else if y < 0 then '-' :: natPad (-y).toNat 6
      else '+' :: natPad y.toNat 6
    ⟨ys ++ ('-' :: natPad m 2) ++ ('-' :: natPad d 2)⟩

/-- Model of `Date.parse` restricted to the date-only forms the sanitizer
can emit: the canonical `YYYY-MM-DD` and the expanded `±YYYYYY-MM-DD` that
`toISOString` uses for years outside 0..9999 (still within the TimeClip
range).  Such a string parses iff it denotes a real calendar date inside the
clip range; `-000000` is rejected as in ECMA-262.  The many other formats JS
`Date.parse` accepts are not modelled: in this pipeline the date rule is only
ever applied to sanitizer output. -/
def jsDateParseValid (s : String) : Bool :=
  match s.data with
  | [y1, y2, y3, y4, '-', m1, m2, '-', d1, d2] =>
    if y1.isDigit ∧ y2.isDigit ∧ y3.isDigit ∧ y4.isDigit ∧
       m1.isDigit ∧ m2.isDigit ∧ d1.isDigit ∧ d2.isDigit then
      let y : Int := (digitsVal [y1, y2, y3, y4] : Int)
      let m := digitsVal [m1, m2]
      let d := digitsVal [d1, d2]
      decide (1 ≤ m ∧ m ≤ 12 ∧ 1 ≤ d ∧ d ≤ daysInMonth y m)
    else false
  | [sg, y1, y2, y3, y4, y5, y6, '-', m1, m2, '-', d1, d2] =>
    if (sg = '+' ∨ sg = '-') ∧ y1.isDigit ∧ y2.isDigit ∧ y3.isDigit ∧ y4.isDigit ∧
       y5.isDigit ∧ y6.isDigit ∧ m1.isDigit ∧ m2.isDigit ∧ d1.isDigit ∧ d2.isDigit then
      let yn := digitsVal [y1, y2, y3, y4, y5, y6]
      let y : Int := if sg = '-' then -(yn : Int) else (yn : Int)
      let m := digitsVal [m1, m2]
      let d := digitsVal [d1, d2]
      if sg = '-' ∧ yn = 0 then false
      else
        decide (1 ≤ m ∧ m ≤ 12 ∧ 1 ≤ d ∧ d ≤ daysInMonth y m ∧
          (daysFromCivil y m (d : Int)).natAbs ≤ 100000000)
    else false
  | _ => false

/-! ## Data model (src/utils/parseCSV.ts) -/

/-- The `ParsedRow` interface: the eight schema columns plus the identifier.
Field names are the machine-friendly spellings (the TS interface uses the
quoted column names). -/
structure ParsedRow where
  id : String
  accountType : String
  accountNumber : String
  transactionDate : String
  chequeNumber : String
  description1 : String
  description2 : String
  cad : String
  usd : String
deriving DecidableEq, Repr

/-- The `DBTransaction` interface (persisted shape). -/
structure DBTransaction where
  id : String
  accountType : String
  accountNumber : String
  transactionDate : String
  chequeNumber : String
  description1 : String
  description2 : String
  cadAmount : String
  usdAmount : String
deriving DecidableEq, Repr

/-- `REQUIRED_HEADERS` from parseCSV.ts. -/
def REQUIRED_HEADERS : List String :=
  ["Account Type", "Account Number", "Transaction Date", "Cheque Number",
   "Description 1", "Description 2", "CAD$", "USD$"]

/-- `convertToDBFormat` from parseCSV.ts. -/
def convertToDBFormat (row : ParsedRow) : DBTransaction :=
  { id := row.id
    accountType := row.accountType
    accountNumber := row.accountNumber
    transactionDate := row.transactionDate
    chequeNumber := row.chequeNumber
    description1 := row.description1
    description2 := row.description2
    cadAmount := row.cad
    usdAmount := row.usd }

/-- A row as it leaves the decoder and enters `validateRows`: the id attached
by `parseCSV` plus the header-keyed record in file order (the keys of the JS
object built by Papa Parse, which are the decoded headers). -/
structure RawRow where
  id : String
  fields : List (String × String)
deriving DecidableEq, Repr

/-- JS property access `row[k] || ""`: a missing key (undefined) and the
empty string both fall to `""`. -/
def rawLookup : List (String × String) → String → String
  | [], _ => ""
  | (k', v) :: rest, k => if k' = k then v else rawLookup rest k

/-- JS property read `row[k]` as an option: `none` is `undefined`. -/
def rawFind : List (String × String) → String → Option String
  | [], _ => none
  | (k', v) :: rest, k => if k' = k then some v else rawFind rest k

/-- `parseCSV`'s completion handler, `results.data.map((row) => ({ id:
nanoid(), ...row }))`: each decoded record consumes one generated id, in
order, but the object spread lets a decoded `id` field of the record
OVERWRITE the generated id — a file with an `id` column yields rows carrying
the file's id values, possibly empty.  Decoding itself (Papa Parse) is
outside the repository; its output is the record list taken as input, with
each record's keys assumed distinct (Papa renames duplicate headers). -/
def parseCSVAux (gen : Nat → String) : Nat → List (List (String × String)) → List RawRow
  | _, [] => []
  | i, rec :: rest =>
    { id := (rawFind rec "id").getD (gen i), fields := rec } :: parseCSVAux gen (i + 1) rest

def parseCSVModel (gen : Nat → String) (recs : List (List (String × String))) : List RawRow :=
  parseCSVAux gen 0 recs

/-! ## Error taxonomy

The source throws plain `Error` values; the constructors record which throw
site produced the error, and `message` reproduces the thrown message where
the source fixes it (the message of the RangeError thrown by `toISOString`
and of the storage-layer ConstraintError are engine-supplied). -/

inductive PipelineError where
  | noData : PipelineError
  | schemaError : PipelineError
  | rangeError (raw : String) : PipelineError
  | validationError (col : String) (value : String) : PipelineError
  | duplicateKey (id : String) : PipelineError
deriving DecidableEq, Repr

def PipelineError.message : PipelineError → String
  | .noData => "No data to validate"
  | .schemaError => "Invalid headers detected during validation"
  | .rangeError _ => "Invalid time value"
  | .validationError c v => "Invalid type for column \"" ++ c ++ "\": " ++ v
  | .duplicateKey _ => "Failed to store transaction: ConstraintError"

def isErr {ε α : Type} : Except ε α → Bool
  | .error _ => true
  | .ok _ => false

/-! ## Column rules and type checking (HomePage.tsx) -/

inductive ColType where
  | string : ColType
  | number : ColType
  | date : ColType
deriving DecidableEq, Repr

/-- The eight non-id columns, in schema order. -/
inductive Col where
  | accountType | accountNumber | transactionDate | chequeNumber
  | description1 | description2 | cad | usd
deriving DecidableEq, Repr

def Col.name : Col → String
  | .accountType => "Account Type"
  | .accountNumber => "Account Number"
  | .transactionDate => "Transaction Date"
  | .chequeNumber => "Cheque Number"
  | .description1 => "Description 1"
  | .description2 => "Description 2"
  | .cad => "CAD$"
  | .usd => "USD$"

def allCols : List Col :=
  [.accountType, .accountNumber, .transactionDate, .chequeNumber,
   .description1, .description2, .cad, .usd]

def ParsedRow.get (p : ParsedRow) : Col → String
  | .accountType => p.accountType
  | .accountNumber => p.accountNumber
  | .transactionDate => p.transactionDate
  | .chequeNumber => p.chequeNumber
  | .description1 => p.description1
  | .description2 => p.description2
  | .cad => p.cad
  | .usd => p.usd

/-- `COLUMN_RULES` from HomePage.tsx: (type, allowEmpty) per column. -/
def COLUMN_RULES : Col → ColType × Bool
  | .accountType => (.string, false)
  | .accountNumber => (.string, false)
  | .transactionDate => (.date, false)
  | .chequeNumber => (.string, true)
  | .description1 => (.string, false)
  | .description2 => (.string, true)
  | .cad => (.number, true)
  | .usd => (.number, true)

/-- `checkType` from HomePage.tsx.  The source also lets `null`/`undefined`
through when `allowEmpty` holds; values here are always strings, so only the
empty-string case of that test is representable.  `typeof value === "string"`
is true of every string; the number test is `!isNaN(Number(value))` and the
date test `!isNaN(Date.parse(value))`. -/
def checkType (value : String) (expectedType : ColType) (allowEmpty : Bool) : Bool :=
  if allowEmpty ∧ value = "" then true
  else
    match expectedType with
    | .string => true
    | .number => !(jsStringToNumber value).isNaN
    | .date => jsDateParseValid value

/-! ## Sanitizer (HomePage.tsx, sanitizeRow) -/

/-- The date computation of `sanitizeRow`:
`const [month, day, year] = row["Transaction Date"].split('/')` followed by
`new Date(+year, +month - 1, +day).toISOString().split('T')[0]`.
`none` is the RangeError thrown by `toISOString` on an invalid date. -/
def sanitizeDate (s : String) : Option String :=
  let parts := splitOnChar '/' s.data
  let comp : Nat → JSNum := fun i =>
    match parts.get? i with
    | none => .nan
    | some cs => jsNumOfChars cs
  match jsNewDateDays (comp 2) ((comp 0).sub1) (comp 1) with
  | none => none
  | some days => some (isoDateString days)

/-- `sanitizeRow` from HomePage.tsx: reformat the date, trim every other
field, keep the id. -/
def sanitizeRow (p : ParsedRow) : Except PipelineError ParsedRow :=
  match sanitizeDate p.transactionDate with
  | none => .error (.rangeError p.transactionDate)
  | some iso =>
    .ok { id := p.id
          accountType := jsTrim p.accountType
          accountNumber := jsTrim p.accountNumber
          transactionDate := iso
          chequeNumber := jsTrim p.chequeNumber
          description1 := jsTrim p.description1
          description2 := jsTrim p.description2
          cad := jsTrim p.cad
          usd := jsTrim p.usd }

/-! ## Validator and orchestrator (HomePage.tsx, validateRows) -/

/-- The inner `for (const col of REQUIRED_HEADERS)` loop of `validateRows`:
stop at the first column whose `checkType` fails. -/
def validateFieldsAux (row : ParsedRow) : List Col → Except PipelineError Unit
  | [] => .ok ()
  | c :: rest =>
    let rule := COLUMN_RULES c
    if checkType (row.get c) rule.1 rule.2 then validateFieldsAux row rest
    else .error (.validationError c.name (row.get c))

def validateFields (row : ParsedRow) : Except PipelineError ParsedRow :=
  match validateFieldsAux row allCols with
  | .error e => .error e
  | .ok _ => .ok row

/-- Keys of the first row as `validateRows` computes them:
`Object.keys(rows[0]).filter(k => k !== "id" && k !== "__parsed_extra")`.
The JS object is `{ id: nanoid(), ...row }`, so its keys are `"id"` followed
by the decoded headers in file order. -/
def firstRowKeys (r : RawRow) : List String :=
  ("id" :: r.fields.map Prod.fst).filter
    (fun k => decide (k ≠ "id" ∧ k ≠ "__parsed_extra"))

/-- The header comparison of `validateRows`: length equality with
`REQUIRED_HEADERS` plus position-wise equality over its eight indices —
jointly, list equality, realised here as a simultaneous recursion. -/
def headerOkAux : List String → List String → Bool
  | [], [] => true
  | h :: hs, k :: ks => decide (h = k) && headerOkAux hs ks
  | _, _ => false

def headerOk (ks : List String) : Bool := headerOkAux REQUIRED_HEADERS ks

/-- The `cleanRow` literal built for each row: preserve a truthy id, call
`nanoid()` otherwise; default every missing field to the empty string. -/
def cleanRow (fresh : String) (r : RawRow) : ParsedRow :=
  { id := if r.id = "" then fresh else r.id
    accountType := rawLookup r.fields "Account Type"
    accountNumber := rawLookup r.fields "Account Number"
    transactionDate := rawLookup r.fields "Transaction Date"
    chequeNumber := rawLookup r.fields "Cheque Number"
    description1 := rawLookup r.fields "Description 1"
    description2 := rawLookup r.fields "Description 2"
    cad := rawLookup r.fields "CAD$"
    usd := rawLookup r.fields "USD$" }

/-- One iteration of the first loop of `validateRows`: clean, sanitize,
validate. -/
def processOne (fresh : String) (r : RawRow) : Except PipelineError ParsedRow :=
  match sanitizeRow (cleanRow fresh r) with
  | .error e => .error e
  | .ok srow => validateFields srow

/-- Whether a row fails the sanitize / validate stage.  The outcome does not
depend on the id the row carries (proved below), so the fresh id is fixed. -/
def rowFails (r : RawRow) : Bool := isErr (processOne "" r)

/-- The first loop of `validateRows` over the whole batch, threading the
`nanoid()` supply: the generator index advances once per id-less row. -/
def processRows (gen : Nat → String) : Nat → List RawRow → Except PipelineError (List ParsedRow)
  | _, [] => .ok []
  | n, r :: rest =>
    match processOne (gen n) r with
    | .error e => .error e
    | .ok v =>
      match processRows gen (if r.id = "" then n + 1 else n) rest with
      | .error e => .error e
      | .ok vs => .ok (v :: vs)

/-! ## Storage gateway (transactionsRepo.ts over the IndexedDB store) -/

/-- The `transactions` object store: records keyed by `id` (keyPath). -/
abbrev Store := List DBTransaction

def containsId : Store → String → Bool
  | [], _ => false
  | t :: rest, i => if t.id = i then true else containsId rest i

/-- `addTransaction`: convert and `store.add` in its own transaction; IDB
`add` raises ConstraintError when the key already exists. -/
def addTransaction (row : ParsedRow) (s : Store) : Except PipelineError Store :=
  let dbRow := convertToDBFormat row
  if containsId s dbRow.id then .error (.duplicateKey dbRow.id)
  else .ok (s ++ [dbRow])

/-- The second loop of `validateRows`: insert each validated row through
`addTransaction`, each in its own committed storage transaction; on the first
failure the loop rethrows, keeping the rows already inserted. -/
def persistAll : List ParsedRow → Store → Option PipelineError × Store
  | [], s => (none, s)
  | r :: rest, s =>
    match addTransaction r s with
    | .error e => (some e, s)
    | .ok s' => persistAll rest s'

/-- `db.count("transactions")`. -/
def transactionCount (s : Store) : Nat := s.length

/-- IDB `delete` of a key: remove the record if present, succeed either way.
`deleteTransaction` in transactionsRepo.ts adds no existence check. -/
def removeId (i : String) : Store → Store
  | [] => []
  | t :: rest => if t.id = i then removeId i rest else t :: removeId i rest

def deleteTransaction (i : String) (s : Store) : Except PipelineError Store :=
  .ok (removeId i s)

/-- `validateRows` from HomePage.tsx, the commit orchestrator: reject an
empty batch, check the header contract on the first row's keys, sanitize and
validate every row, then persist row by row. -/
def validateRows (gen : Nat → String) (rows : List RawRow) (store : Store) :
    Except PipelineError (List ParsedRow) × Store :=
  match rows with
  | [] => (.error .noData, store)
  | r0 :: _ =>
    if headerOk (firstRowKeys r0) then
      match processRows gen 0 rows with
      | .error e => (.error e, store)
      | .ok vs =>
        match persistAll vs store with
        | (some e, s') => (.error e, s')
        | (none, s') => (.ok vs, s')
    else (.error .schemaError, store)

/-! ## Spec-side predicate, for comparison with the code's number rule -/

/-- The number rule as the specification words it: the value parses to a
finite number.  Stated from the spec for comparison with `checkType`'s
actual test `!isNaN(Number(value))`. -/
def parsesToFiniteNumber (v : String) : Bool :=
  match jsStringToNumber v with
  | .fin _ => true
  | _ => false

/-! ## Concrete sample data used by the witnesses and counterexamples -/

/-- A record in file order under the correct eight headers. -/
def mkFields (a1 a2 a3 a4 a5 a6 a7 a8 : String) : List (String × String) :=
  [("Account Type", a1), ("Account Number", a2), ("Transaction Date", a3),
   ("Cheque Number", a4), ("Description 1", a5), ("Description 2", a6),
   ("CAD$", a7), ("USD$", a8)]

/-- A fixed id supply standing in for `nanoid()` (always the same non-empty
string; uniqueness of generated ids is not at stake in these claims). -/
def wgen : Nat → String := fun _ => "w"

/-- A valid decoded row (Scenario A shape), id already attached. -/
def rawOkA : RawRow :=
  { id := "a", fields := mkFields "Chequing" "12345" "01/15/2024" "" "g" "" "" "" }

/-- The pipeline's output for `rawOkA`. -/
def vOkA : ParsedRow := ⟨"a", "Chequing", "12345", "2024-01-15", "", "g", "", "", ""⟩

/-- A row whose Transaction Date fails to coerce (sanitize error). -/
def rawBad : RawRow :=
  { id := "a", fields := mkFields "Chequing" "12345" "abc" "" "g" "" "" "" }

/-- A record whose last two headers are swapped (Scenario B). -/
def swappedFields : List (String × String) :=
  [("Account Type", "Chequing"), ("Account Number", "12345"),
   ("Transaction Date", "01/15/2024"), ("Cheque Number", ""),
   ("Description 1", "g"), ("Description 2", ""), ("USD$", ""), ("CAD$", "")]

def rbadH : RawRow := { id := "a", fields := swappedFields }

/-- A record already in the store, id `"b"`. -/
def tB : DBTransaction := ⟨"b", "S", "1", "2024-01-01", "", "d", "", "", ""⟩

/-- Two valid decoded rows; the second one's id collides with `tB`. -/
def rbX : RawRow :=
  { id := "x1", fields := mkFields "Chequing" "12345" "01/15/2024" "" "g" "" "" "" }

def rbB : RawRow :=
  { id := "b", fields := mkFields "Chequing" "12345" "01/15/2024" "" "g" "" "" "" }

/-- The sanitized form of `rbX`. -/
def vX1 : ParsedRow := ⟨"x1", "Chequing", "12345", "2024-01-15", "", "g", "", "", ""⟩

/-- A validated row used twice in one batch: its duplicate id makes the
second insert fail at the storage layer. -/
def vDup : ParsedRow := ⟨"a", "Chequing", "12345", "2024-01-15", "", "g", "", "", ""⟩

/-- A cleaned row with Transaction Date `"13/45/2024"` (Scenario C input). -/
def p1345 : ParsedRow := ⟨"a", "Chequing", "12345", "13/45/2024", "", "Grocery", "", "", ""⟩

/-- Its sanitized-by-the-code form: the date rolled over. -/
def s1345 : ParsedRow := ⟨"a", "Chequing", "12345", "2025-02-14", "", "Grocery", "", "", ""⟩

/-- The Scenario C row as decoded. -/
def raw1345 : RawRow :=
  { id := "a", fields := mkFields "Chequing" "12345" "13/45/2024" "" "Grocery" "" "" "" }

/-- A decoded row with empty `Description 1` (Scenario D input). -/
def rawD : RawRow :=
  { id := "a", fields := mkFields "Chequing" "12345" "01/15/2024" "" "" "" "-54.32" "" }

/-- Its sanitized form: `description1` still empty. -/
def vD : ParsedRow := ⟨"a", "Chequing", "12345", "2024-01-15", "", "", "", "-54.32", ""⟩

/-- A cleaned row with a slash date (Scenario A shape), and its sanitized
form: the canonical date that a second sanitization chokes on. -/
def pA : ParsedRow :=
  ⟨"a", "Chequing", "12345", "01/15/2024", "", "Grocery Store", "", "-54.32", ""⟩

def sA : ParsedRow :=
  ⟨"a", "Chequing", "12345", "2024-01-15", "", "Grocery Store", "", "-54.32", ""⟩

/-- A stored record for the delete claims. -/
def t1 : DBTransaction := ⟨"a", "Chequing", "12345", "2024-01-15", "", "g", "", "-54.32", ""⟩

/-- A decoded record from a file with an extra `id` column before the eight
schema columns: its header list has nine entries. -/
def idColFields : List (String × String) :=
  ("id", "zzz") :: mkFields "Chequing" "12345" "01/15/2024" "" "g" "" "" ""

/-- The decoder's output for `idColFields`: the file's id value overwrites
the generated one. -/
def rawIdCol : RawRow := { id := "zzz", fields := idColFields }

/-- The row the pipeline persists for `rawIdCol`. -/
def vIdCol : ParsedRow := ⟨"zzz", "Chequing", "12345", "2024-01-15", "", "g", "", "", ""⟩

/-- A decoded record whose `id` column holds the empty string. -/
def recIdEmpty : List (String × String) := [("id", ""), ("Account Type", "x")]

/-! ## Helper lemmas -/

/-- The header comparison succeeds exactly on the required header list. -/
lemma headerOkAux_iff : ∀ xs ys : List String, headerOkAux xs ys = true ↔ xs = ys := by
  intro xs
  induction xs with
  | nil => intro ys; cases ys <;> simp [headerOkAux]
  | cons h t ih => intro ys; cases ys with
    | nil => simp [headerOkAux]
    | cons k ks => simp [headerOkAux, ih]

lemma headerOk_iff (ks : List String) : headerOk ks = true ↔ REQUIRED_HEADERS = ks := by
  unfold headerOk
  exact headerOkAux_iff REQUIRED_HEADERS ks

/-- The id a row carries plays no part in cleaning except being preserved. -/
lemma cleanRow_fresh (f : String) (r : RawRow) :
    cleanRow f r = { cleanRow "" r with id := if r.id = "" then f else r.id } := by
  simp [cleanRow]

/-- Sanitization commutes with replacing the id: the date computation and the
trims read only the other fields. -/
lemma sanitize_setId (p : ParsedRow) (x : String) :
    sanitizeRow { p with id := x } = Except.map (fun q => { q with id := x }) (sanitizeRow p) := by
  cases hd : sanitizeDate p.transactionDate <;> simp [sanitizeRow, hd, Except.map]

lemma get_setId (p : ParsedRow) (x : String) (c : Col) :
    ParsedRow.get { p with id := x } c = p.get c := by
  cases c <;> rfl

lemma vfa_setId (p : ParsedRow) (x : String) :
    ∀ cols, validateFieldsAux { p with id := x } cols = validateFieldsAux p cols := by
  intro cols
  induction cols with
  | nil => rfl
  | cons c rest ih => simp [validateFieldsAux, get_setId, ih]

/-- Whether a row clears sanitize + validate does not depend on the fresh id
it may be handed. -/
lemma processOne_isErr (f : String) (r : RawRow) : isErr (processOne f r) = rowFails r := by
  unfold rowFails processOne
  rw [cleanRow_fresh f r]
  generalize cleanRow "" r = p
  rw [sanitize_setId]
  cases hs : sanitizeRow p with
  | error e => simp [Except.map, isErr]
  | ok v =>
    simp only [Except.map]
    show isErr (validateFields { v with id := if r.id = "" then f else r.id }) =
      isErr (validateFields v)
    unfold validateFields
    rw [vfa_setId]
    cases validateFieldsAux v allCols <;> simp [isErr]

/-- A batch containing a failing row makes the first loop of `validateRows`
error out, whatever the id supply position. -/
lemma processRows_fail (gen : Nat → String) :
    ∀ (l : List RawRow) (n : Nat), (∃ r, r ∈ l ∧ rowFails r = true) →
      ∃ e, processRows gen n l = .error e := by
  intro l
  induction l with
  | nil => rintro n ⟨r, hr, _⟩; cases hr
  | cons a l ih =>
    rintro n ⟨r, hr, hf⟩
    cases hp : processOne (gen n) a with
    | error e => exact ⟨e, by unfold processRows; rw [hp]⟩
    | ok v =>
      have ha : rowFails a = false := by
        have h2 := processOne_isErr (gen n) a
        rw [hp] at h2
        simpa [isErr] using h2.symm
      cases hr with
      | head => simp [ha] at hf
      | tail _ hmem =>
        obtain ⟨e, he⟩ := ih (if a.id = "" then n + 1 else n) ⟨r, hmem, hf⟩
        exact ⟨e, by unfold processRows; rw [hp, he]⟩

lemma sanitizeRow_ok_id (p v : ParsedRow) (h : sanitizeRow p = .ok v) : v.id = p.id := by
  unfold sanitizeRow at h
  cases hd : sanitizeDate p.transactionDate with
  | none => rw [hd] at h; cases h
  | some iso => rw [hd] at h; injection h with h; rw [← h]

lemma validateFields_ok_eq (p v : ParsedRow) (h : validateFields p = .ok v) : v = p := by
  unfold validateFields at h
  cases hv : validateFieldsAux p allCols with
  | error e => rw [hv] at h; cases h
  | ok u => rw [hv] at h; injection h with h; exact h.symm

/-- A row that clears the first loop carries its input id, or the fresh id
exactly when it had none. -/
lemma processOne_ok_id (f : String) (r : RawRow) (v : ParsedRow)
    (h : processOne f r = .ok v) : v.id = if r.id = "" then f else r.id := by
  unfold processOne at h
  cases hs : sanitizeRow (cleanRow f r) with
  | error e => rw [hs] at h; cases h
  | ok srow =>
    rw [hs] at h
    have h1 : v = srow := validateFields_ok_eq srow v h
    have h2 : srow.id = (cleanRow f r).id := sanitizeRow_ok_id _ _ hs
    rw [h1, h2]
    rfl

/-- Ids through the first loop: lengths agree, existing ids are kept, and
every output id is non-empty when the generator only yields non-empty ids. -/
lemma processRows_ids (gen : Nat → String) (hgen : ∀ k, gen k ≠ "") :
    ∀ (l : List RawRow) (n : Nat) (vs : List ParsedRow), processRows gen n l = .ok vs →
      vs.length = l.length ∧
      ∀ i r v, l.get? i = some r → vs.get? i = some v →
        (r.id ≠ "" → v.id = r.id) ∧ v.id ≠ "" := by
  intro l
  induction l with
  | nil =>
    intro n vs h
    unfold processRows at h
    injection h with h
    rw [← h]
    exact ⟨rfl, by intro i r v hr; cases hr⟩
  | cons a l ih =>
    intro n vs h
    unfold processRows at h
    cases hp : processOne (gen n) a with
    | error e => rw [hp] at h; cases h
    | ok v0 =>
      rw [hp] at h
      cases hq : processRows gen (if a.id = "" then n + 1 else n) l with
      | error e => rw [hq] at h; cases h
      | ok vs2 =>
        rw [hq] at h
        injection h with h
        rw [← h]
        obtain ⟨hlen, hidx⟩ := ih (if a.id = "" then n + 1 else n) vs2 hq
        refine ⟨by simp [hlen], ?_⟩
        intro i r v hr hv
        cases i with
        | zero =>
          rw [List.get?_cons_zero] at hr hv
          injection hr with hr
          injection hv with hv
          rw [← hr, ← hv]
          have hid := processOne_ok_id (gen n) a v0 hp
          by_cases ha : a.id = ""
          · rw [if_pos ha] at hid
            exact ⟨fun hne => absurd ha hne, by rw [hid]; exact hgen n⟩
          · rw [if_neg ha] at hid
            exact ⟨fun _ => hid, by rw [hid]; exact ha⟩
        | succ j =>
          rw [List.get?_cons_succ] at hr hv
          exact hidx j r v hr hv

/-- A successful run of `validateRows` means the first loop succeeded with
the returned rows. -/
lemma validateRows_ok_inv (gen : Nat → String) (rows : List RawRow) (store : Store)
    (vs : List ParsedRow) (s' : Store)
    (h : validateRows gen rows store = (.ok vs, s')) :
    processRows gen 0 rows = .ok vs := by
  cases rows with
  | nil => simp [validateRows] at h
  | cons r0 rest =>
    simp only [validateRows] at h
    by_cases hh : headerOk (firstRowKeys r0) = true
    · rw [if_pos hh] at h
      cases hp : processRows gen 0 (r0 :: rest) with
      | error e => rw [hp] at h; simp at h
      | ok vs2 =>
        rw [hp] at h
        simp only [] at h
        rcases hq : persistAll vs2 store with ⟨oe, s2⟩
        rw [hq] at h
        cases oe with
        | some e => simp at h
        | none =>
          simp at h
          rw [h.1]
    · rw [if_neg hh] at h
      simp at h

lemma addTransaction_ok (r : ParsedRow) (s s' : Store)
    (h : addTransaction r s = .ok s') : s' = s ++ [convertToDBFormat r] := by
  unfold addTransaction at h
  by_cases hc : containsId s (convertToDBFormat r).id = true
  · rw [if_pos hc] at h; cases h
  · rw [if_neg hc] at h; injection h with h; exact h.symm

/-- When the persistence loop fails, the store holds exactly the records it
held before plus the converted successfully-inserted prefix of the batch:
nothing is rolled back. -/
lemma persistAll_err_prefix_len : ∀ (rows : List ParsedRow) (s : Store) (e : PipelineError) (s' : Store),
    persistAll rows s = (some e, s') →
    s' = s ++ (rows.take (s'.length - s.length)).map convertToDBFormat := by
  intro rows
  induction rows with
  | nil => intro s e s' h; unfold persistAll at h; simp at h
  | cons r rest ih =>
    intro s e s' h
    unfold persistAll at h
    cases ha : addTransaction r s with
    | error e0 =>
      rw [ha] at h
      injection h with h1 h2
      rw [← h2]
      simp
    | ok s1 =>
      rw [ha] at h
      have h1 := ih s1 e s' h
      have hs1 : s1 = s ++ [convertToDBFormat r] := addTransaction_ok r s s1 ha
      have hge : s1.length ≤ s'.length := by
        rw [h1]; simp
      have hlen1 : s1.length = s.length + 1 := by rw [hs1]; simp
      have harith : s'.length - s.length = (s'.length - s1.length) + 1 := by omega
      rw [harith, List.take_succ_cons, List.map_cons]
      calc s' = s1 ++ (rest.take (s'.length - s1.length)).map convertToDBFormat := h1
    _ = s ++ convertToDBFormat r :: (rest.take (s'.length - s1.length)).map convertToDBFormat := by
          rw [hs1]; simp

/-- Deleting a key held by no record leaves the store untouched. -/
lemma removeId_eq_self (i : String) : ∀ (s : Store), (∀ t ∈ s, t.id ≠ i) → removeId i s = s := by
  intro s
  induction s with
  | nil => intro _; rfl
  | cons t rest ih =>
    intro h
    unfold removeId
    rw [if_neg (h t (List.mem_cons_self t rest))]
    rw [ih (fun u hu => h u (List.mem_cons_of_mem t hu))]

/-! ## Claims -/

/-- C1: for every batch of N >= 1 parsed rows in which at least one row fails
sanitization or validation, the import raises an error and persists zero
rows — the store after the attempt is the store before it (so `count()` is
unchanged), because `validateRows` sanitizes and validates every row before
persisting any. -/
theorem batch_all_or_nothing (gen : Nat → String) (rows : List RawRow) (store : Store)
    (hne : rows ≠ []) (hfail : ∃ r, r ∈ rows ∧ rowFails r = true) :
    isErr (validateRows gen rows store).1 = true ∧ (validateRows gen rows store).2 = store := by
  cases rows with
  | nil => exact absurd rfl hne
  | cons r0 rest =>
    by_cases hh : headerOk (firstRowKeys r0) = true
    · obtain ⟨e, he⟩ := processRows_fail gen (r0 :: rest) 0 hfail
      constructor <;> simp [validateRows, hh, he, isErr]
    · have hh2 : headerOk (firstRowKeys r0) = false := by
        cases hcc : headerOk (firstRowKeys r0)
        · rfl
        · exact absurd hcc hh
      constructor <;> simp [validateRows, hh2, isErr]

/-- Witness for C1: a one-row batch whose Transaction Date `"abc"` fails
sanitization leaves the empty store empty and errors. -/
theorem batch_all_or_nothing_witness :
    isErr (validateRows wgen [rawBad] []).1 = true ∧
    (validateRows wgen [rawBad] []).2 = ([] : Store) :=
  batch_all_or_nothing wgen [rawBad] [] (by simp)
    ⟨rawBad, List.mem_singleton.mpr rfl, by rfl⟩

/-- C2 (amended): when the persistence loop fails at some row, the rows of
the batch inserted before it stay in the store — each row is persisted in its
own storage transaction (`addTransaction`) and nothing is rolled back, so the
store after the failed attempt is the store before it plus the converted
successfully-inserted prefix. -/
theorem persist_error_keeps_earlier (rows : List ParsedRow) (s : Store) (e : PipelineError)
    (s' : Store) (h : persistAll rows s = (some e, s')) :
    s' = s ++ (rows.take (s'.length - s.length)).map convertToDBFormat :=
  persistAll_err_prefix_len rows s e s' h

/-- Witness for C2: inserting the same validated row twice fails on the
second insert while the first stays persisted. -/
theorem persist_error_keeps_earlier_witness :
    [convertToDBFormat vDup] =
      ([] : Store) ++
        ([vDup, vDup].take ([convertToDBFormat vDup].length - ([] : Store).length)).map
          convertToDBFormat :=
  persist_error_keeps_earlier [vDup, vDup] [] (.duplicateKey "a") [convertToDBFormat vDup] (by rfl)

/-- Counterexample for C2 as stated: a two-row import whose second row
collides with a stored id errors, yet the first row of the batch has been
written — the store does not equal its pre-attempt contents. -/
theorem import_partial_write_cex :
    validateRows wgen [rbX, rbB] [tB] =
      (.error (.duplicateKey "b"), [tB, convertToDBFormat vX1]) ∧
    [tB, convertToDBFormat vX1] ≠ [tB] := by
  constructor
  · rfl
  · simp

/-- Counterexample for C3 as stated: a file with an extra `id` column
decodes to a nine-entry header list different from the Required Header
Schema, yet the pipeline raises no SchemaError — the code filters `id` (and
`__parsed_extra`) out of the first row's keys before comparing, the check
passes, and the row is validated and persisted. -/
theorem extra_id_column_accepted_cex :
    idColFields.map Prod.fst ≠ REQUIRED_HEADERS ∧
    parseCSVModel wgen [idColFields] = [rawIdCol] ∧
    validateRows wgen [rawIdCol] [] = (.ok [vIdCol], [convertToDBFormat vIdCol]) := by
  refine ⟨by decide, by rfl, by rfl⟩

/-- C3 (amended): a first row whose key list AFTER the code's filter of
`id` and `__parsed_extra` differs from the Required Header Schema makes
`validateRows` fail with the schema error before any row-level work, leaving
the store untouched.  Decoded header lists that differ from the schema only
by extra `id` / `__parsed_extra` columns are not rejected (the filter erases
the difference), and a mismatched-header file with zero data rows raises the
empty-batch error instead. -/
theorem header_mismatch_rejects (gen : Nat → String) (store : Store) (r0 : RawRow)
    (rest : List RawRow) (h : firstRowKeys r0 ≠ REQUIRED_HEADERS) :
    validateRows gen (r0 :: rest) store = (.error .schemaError, store) := by
  have hh : headerOk (firstRowKeys r0) = false := by
    cases hcc : headerOk (firstRowKeys r0)
    · rfl
    · exact absurd ((headerOk_iff (firstRowKeys r0)).mp hcc).symm h
  simp [validateRows, hh]

/-- Witness for C3: the Scenario B header (CAD$ and USD$ swapped) is
rejected with the schema error and the store stays empty. -/
theorem header_mismatch_rejects_witness :
    validateRows wgen [rbadH] [] = (.error .schemaError, ([] : Store)) ∧
    firstRowKeys rbadH ≠ REQUIRED_HEADERS :=
  ⟨header_mismatch_rejects wgen [] rbadH [] (by decide), by decide⟩

/-- Counterexample for C4 as stated: sanitizing the row with Transaction
Date `"13/45/2024"` does not fail — it succeeds, rolling the out-of-range
components over to the canonical date `"2025-02-14"`. -/
theorem sanitize_rollover_cex : sanitizeRow p1345 = .ok s1345 := by rfl

/-- C4 (amended): sanitizing a row with Transaction Date `"13/45/2024"` does
not fail with a FormatError — the JS Date semantics roll the out-of-range
components over to the canonical date `"2025-02-14"`, the row then validates
and is persisted: the batch is accepted and the store changes, the unreal
but numeric date silently normalized rather than rejected. -/
theorem rollover_date_import_ok :
    validateRows wgen [raw1345] [] = (.ok [s1345], [convertToDBFormat s1345]) ∧
    s1345.transactionDate = "2025-02-14" := by
  constructor
  · rfl
  · rfl

/-- Counterexample for C5 as stated: a row with empty `Description 1`
passes validation — the batch is accepted and persisted, with the empty
description stored. -/
theorem empty_description1_accepted_cex :
    validateRows wgen [rawD] [] = (.ok [vD], [convertToDBFormat vD]) ∧
    vD.description1 = "" := by
  constructor
  · rfl
  · rfl

/-- The `string` rule accepts every string value whatever `allowEmpty`
says: `typeof value === "string"` is true of any string, and the
`allowEmpty` branch can only return true early. -/
lemma string_rule_accepts_any (v : String) (ae : Bool) :
    checkType v .string ae = true := by
  unfold checkType
  split
  · rfl
  · rfl

lemma validateFieldsAux_desc1_ne (p : ParsedRow) (val : String) :
    ∀ cols : List Col,
      validateFieldsAux p cols ≠ .error (.validationError "Description 1" val) := by
  intro cols
  induction cols with
  | nil => intro h; simp [validateFieldsAux] at h
  | cons c rest ih =>
    intro h
    unfold validateFieldsAux at h
    by_cases hc : checkType (p.get c) (COLUMN_RULES c).1 (COLUMN_RULES c).2 = true
    · rw [if_pos hc] at h
      exact ih h
    · rw [if_neg hc] at h
      injection h with h
      cases c <;>
        first
        | exact hc (string_rule_accepts_any _ _)
        | (injection h with h1 h2; exact absurd h1 (by decide))

/-- C5 (amended): validation never rejects a row over `Description 1` — the
string rule accepts every string regardless of `allowEmpty`, so a
ValidationError naming `"Description 1"` is unreachable: a row whose
`Description 1` is the empty string is not failed on that column and the
batch is not rejected on account of it. -/
theorem description1_never_rejected (p : ParsedRow) (val : String) :
    validateFields p ≠ .error (.validationError "Description 1" val) := by
  intro h
  unfold validateFields at h
  cases hv : validateFieldsAux p allCols with
  | error e =>
    rw [hv] at h
    injection h with h
    exact validateFieldsAux_desc1_ne p val allCols (by rw [hv, h])
  | ok u => rw [hv] at h; cases h

/-- Witness for C5 (amended): the empty-Description-1 row of Scenario D is
never the subject of a "Description 1" validation error. -/
theorem description1_never_rejected_witness :
    validateFields vD ≠ .error (.validationError "Description 1" "x") :=
  description1_never_rejected vD "x"

/-- Counterexample for C6 as stated: `"Infinity"` does not parse to a finite
number and is not empty, yet the number rule accepts it. -/
theorem infinity_accepted_cex :
    checkType "Infinity" .number false = true ∧
    parsesToFiniteNumber "Infinity" = false ∧ "Infinity" ≠ "" := by
  refine ⟨by rfl, by rfl, by decide⟩

/-- C6 (amended): the number rule accepts a value exactly when
`Number(value)` is not NaN — so non-finite numeric strings like `"Infinity"`
pass, the empty string (which coerces to 0) passes even with
`allowEmpty = false`, and `allowEmpty` is irrelevant to the rule. -/
theorem number_rule_not_nan (v : String) (ae : Bool) :
    checkType v .number ae = !(jsStringToNumber v).isNaN := by
  unfold checkType
  split
  · next h =>
    obtain ⟨-, rfl⟩ := h
    rfl
  · rfl

/-- Counterexample for C7 as stated: sanitizing the sanitized Scenario A row
does not reproduce it — the second sanitization fails with the RangeError,
because the canonical date contains no slash. -/
theorem sanitize_not_idempotent_cex :
    sanitizeRow pA = .ok sA ∧ sanitizeRow sA = .error (.rangeError "2024-01-15") := by
  constructor
  · rfl
  · rfl

/-- C7 (amended): sanitization is not idempotent — re-sanitizing any row
carrying the canonical date `"2024-01-15"` fails with the RangeError: the
canonical form has no slash, so the whole string becomes the month component
and fails numeric coercion, giving an invalid date. -/
theorem sanitize_canonical_date_fails (p : ParsedRow)
    (h : p.transactionDate = "2024-01-15") :
    sanitizeRow p = .error (.rangeError "2024-01-15") := by
  unfold sanitizeRow
  rw [h]
  rw [show sanitizeDate "2024-01-15" = none from rfl]

/-- Witness for C7 (amended): the sanitized Scenario A row itself. -/
theorem sanitize_canonical_date_fails_witness :
    sanitizeRow sA = .error (.rangeError "2024-01-15") ∧
    sA.transactionDate = "2024-01-15" :=
  ⟨sanitize_canonical_date_fails sA rfl, rfl⟩

/-- Counterexample for C8 as stated: a decoded record with an `id` column
holding the empty string leaves the decoder with an EMPTY id — the object
spread `{ id: nanoid(), ...row }` lets the file's `id` field overwrite the
generated id even though the generator only yields non-empty ids. -/
theorem id_overwritten_by_file_cex :
    parseCSVModel wgen [recIdEmpty] = [{ id := "", fields := recIdEmpty }] ∧
    wgen 0 ≠ "" := by
  refine ⟨by rfl, by decide⟩

/-- Ids of decoder output when no record supplies its own `id` field. -/
lemma parseCSVAux_id_ne (gen : Nat → String) (hgen : ∀ k, gen k ≠ "") :
    ∀ (recs : List (List (String × String))) (i : Nat),
      (∀ rec ∈ recs, rawFind rec "id" = none) →
      ∀ x ∈ parseCSVAux gen i recs, x.id ≠ "" := by
  intro recs
  induction recs with
  | nil => intro i _ x hx; cases hx
  | cons rec rest ih =>
    intro i hno x hx
    unfold parseCSVAux at hx
    cases hx with
    | head =>
      show (rawFind rec "id").getD (gen i) ≠ ""
      rw [hno rec (List.mem_cons_self rec rest)]
      exact hgen i
    | tail _ hmem =>
      exact ih (i + 1) (fun q hq => hno q (List.mem_cons_of_mem rec hq)) x hmem

/-- C8 (amended): ids are assigned exactly once for files without an `id`
column — every row leaving the decoder model then carries the generated
(non-empty) id; a successful `validateRows` run returns one output row per
input row, never reassigns an id on a row that already carries one, and
leaves no output row id-less (a row whose id was emptied by a file-supplied
`id` field gets a fresh one from the safety net). -/
theorem id_assigned_exactly_once (gen : Nat → String)
    (recs : List (List (String × String)))
    (rows : List RawRow) (store : Store) (vs : List ParsedRow) (s' : Store)
    (i : Nat) (r : RawRow) (v : ParsedRow)
    (hgen : ∀ k, gen k ≠ "")
    (hnoid : ∀ rec ∈ recs, rawFind rec "id" = none)
    (hok : validateRows gen rows store = (.ok vs, s'))
    (hr : rows.get? i = some r) (hv : vs.get? i = some v) :
    (parseCSVModel gen recs).all (fun x => decide (x.id ≠ "")) = true ∧
    vs.length = rows.length ∧ (r.id ≠ "" → v.id = r.id) ∧ v.id ≠ "" := by
  have hpr := validateRows_ok_inv gen rows store vs s' hok
  obtain ⟨hlen, hidx⟩ := processRows_ids gen hgen rows 0 vs hpr
  refine ⟨?_, hlen, (hidx i r v hr hv).1, (hidx i r v hr hv).2⟩
  apply List.all_eq_true.mpr
  intro x hx
  simpa using parseCSVAux_id_ne gen hgen recs 0 hnoid x hx

lemma wgen_ne (k : Nat) : wgen k ≠ "" := by
  show "w" ≠ ""
  decide

/-- Witness for C8 (amended): a decoded record without an `id` field gets
the generated id, and a one-row batch with id `"a"` keeps that id through a
successful import. -/
theorem id_assigned_exactly_once_witness :
    (parseCSVModel wgen [[("h", "x")]]).all (fun x => decide (x.id ≠ "")) = true ∧
    [vOkA].length = [rawOkA].length ∧ (rawOkA.id ≠ "" → vOkA.id = rawOkA.id) ∧
    vOkA.id ≠ "" :=
  id_assigned_exactly_once wgen [[("h", "x")]] [rawOkA] [] [vOkA]
    [convertToDBFormat vOkA] 0 rawOkA vOkA wgen_ne (by decide) (by rfl) rfl rfl

/-- Counterexample for C9 as stated: deleting an absent id raises no error —
the call succeeds and the store (hence `count()`) is unchanged. -/
theorem delete_missing_id_silent_cex :
    deleteTransaction "zzz" [t1] = .ok [t1] ∧ transactionCount [t1] = 1 := by
  constructor
  · rfl
  · rfl

/-- C9 (amended): calling delete for an id no stored record carries succeeds
silently as a no-op (the repository's `deleteTransaction` performs no
existence check and IndexedDB `delete` succeeds on absent keys); the store is
returned unchanged, so every stored record survives and `count()` is
unaffected. -/
theorem delete_missing_id_noop (i : String) (s : Store) (h : ∀ t ∈ s, t.id ≠ i) :
    deleteTransaction i s = .ok s := by
  unfold deleteTransaction
  rw [removeId_eq_self i s h]

/-- Witness for C9 (amended). -/
theorem delete_missing_id_noop_witness :
    deleteTransaction "qqq" [t1] = .ok [t1] :=
  delete_missing_id_noop "qqq" [t1] (by decide)

/-- C10: the empty batch — `validateRows` on an empty row list, as produced
by a CSV holding only a header line — fails with the error whose message is
"No data to validate", and the store is untouched. -/
theorem empty_batch_rejected (gen : Nat → String) (store : Store) :
    validateRows gen [] store = (.error .noData, store) ∧
    PipelineError.noData.message = "No data to validate" := by
  constructor
  · rfl
  · rfl
